import Mathlib

/-!
Verification of the gfontapi font-download tool (`src/main.rs`) against its
natural-language specification.

The binary is `src/main.rs`; `src/fonts.rs` and `src/utils.rs` are not part of
the crate's module tree (no `mod` declarations), so `main.rs` is embedded here.

Conventions of the shallow embedding:
* Rust `Result<T, E>` becomes `Except E T`; `Option<T>` becomes `Option T`.
* The `u16` field `downloaded_count` is a `Nat` incremented modulo 2^16.
* External effects (HTTP responses, file writes, the conversion subprocess)
  are abstracted as oracle parameters; every control-flow decision the Rust
  code makes on their results is reproduced exactly.
* Rust strings are Lean `String`s; character-level operations are modelled on
  `String.toList`.
-/

namespace GFontApi

/-- The `FontStyles` enum of `main.rs` (lines 25-44). -/
inductive FontStyles where
  | Thin
  | ThinItalic
  | ExtraLight
  | ExtraLightItalic
  | Light
  | LightItalic
  | Regular
  | RegularItalic
  | Medium
  | MediumItalic
  | SemiBold
  | SemiBoldItalic
  | Bold
  | BoldItalic
  | ExtraBold
  | ExtraBoldItalic
  | Black
  | BlackItalic
deriving DecidableEq, Repr, Fintype

/-- The `strum` kebab-case `Display` implementation derived on `FontStyles`
(`#[strum(serialize_all = "kebab-case")]`, main.rs lines 23-24). -/
def FontStyles.display : FontStyles → String
  | .Thin => "thin"
  | .ThinItalic => "thin-italic"
  | .ExtraLight => "extra-light"
  | .ExtraLightItalic => "extra-light-italic"
  | .Light => "light"
  | .LightItalic => "light-italic"
  | .Regular => "regular"
  | .RegularItalic => "regular-italic"
  | .Medium => "medium"
  | .MediumItalic => "medium-italic"
  | .SemiBold => "semi-bold"
  | .SemiBoldItalic => "semi-bold-italic"
  | .Bold => "bold"
  | .BoldItalic => "bold-italic"
  | .ExtraBold => "extra-bold"
  | .ExtraBoldItalic => "extra-bold-italic"
  | .Black => "black"
  | .BlackItalic => "black-italic"

/-- `FontStyles::get_style_and_weight` (main.rs lines 47-68): CSS style
keyword and numeric weight of each style. -/
def FontStyles.get_style_and_weight : FontStyles → String × Nat
  | .Black => ("normal", 900)
  | .BlackItalic => ("italic", 900)
  | .ExtraBold => ("normal", 800)
  | .ExtraBoldItalic => ("italic", 800)
  | .Bold => ("normal", 700)
  | .BoldItalic => ("italic", 700)
  | .SemiBold => ("normal", 600)
  | .SemiBoldItalic => ("italic", 600)
  | .Medium => ("normal", 500)
  | .MediumItalic => ("italic", 500)
  | .Regular => ("normal", 400)
  | .RegularItalic => ("italic", 400)
  | .Light => ("normal", 300)
  | .LightItalic => ("italic", 300)
  | .ExtraLight => ("normal", 200)
  | .ExtraLightItalic => ("italic", 200)
  | .Thin => ("normal", 100)
  | .ThinItalic => ("italic", 100)

/-- The 18-entry variant-token table built inside `transpile_font_weight`
(main.rs lines 509-528), in source order.  The Rust code stores these pairs
in a `HashMap`; since the keys are pairwise distinct, `HashMap::get`
coincides with association-list lookup. -/
def font_weight_mappings : List (String × FontStyles) :=
  [("100", .Thin),
   ("100italic", .ThinItalic),
   ("200", .ExtraLight),
   ("200italic", .ExtraLightItalic),
   ("300", .Light),
   ("300italic", .LightItalic),
   ("regular", .Regular),
   ("italic", .RegularItalic),
   ("500", .Medium),
   ("500italic", .MediumItalic),
   ("600", .SemiBold),
   ("600italic", .SemiBoldItalic),
   ("700", .Bold),
   ("700italic", .BoldItalic),
   ("800", .ExtraBold),
   ("800italic", .ExtraBoldItalic),
   ("900", .Black),
   ("900italic", .BlackItalic)]

/-- `transpile_font_weight` (main.rs lines 508-534): look the catalog token up
in the 18-entry table; a missing token is the NotFound error. -/
def transpile_font_weight (font_string : String) : Except String FontStyles :=
  match font_weight_mappings.lookup font_string with
  | some style => .ok style
  | none => .error "Couldn't find the variant in the hashmap"

/-- The 18 defined catalog tokens: the keys of the table. -/
def catalog_tokens : List String := font_weight_mappings.map Prod.fst

/-- Model of Rust `str::ends_with "italic"` on the token strings: suffix test
on the character lists. -/
def is_italic_variant (s : String) : Bool :=
  "italic".toList.isSuffixOf s.toList

/-- The `ProgressState` struct (main.rs lines 85-88).  `downloaded_count` is a
Rust `u16`, modelled as a `Nat` kept below 2^16 by reducing every increment
modulo 65536 (release-mode wrapping arithmetic). -/
structure ProgressState where
  downloaded_count : Nat
  downloaded_files : List FontStyles
deriving Repr, DecidableEq

/-- The task-setup loop of `download_font_files` (main.rs lines 279-281):
each `(variant, url)` pair is resolved through `transpile_font_weight`; on the
first failure the enclosing function returns the formatted error via `?`,
aborting the whole run.  On success the resolved `(variant, style)` task list
is produced (URLs are irrelevant to the tracked state). -/
def resolve_variants : List (String × String) → Except String (List (String × FontStyles))
  | [] => .ok []
  | (variant, _url) :: rest =>
    match transpile_font_weight variant with
    | .error e => .error ("Couldn't find variant mapping for " ++ variant ++ ": " ++ e)
    | .ok style =>
      match resolve_variants rest with
      | .error e => .error e
      | .ok others => .ok ((variant, style) :: others)

/-- One spawned task's effect on the shared state (main.rs lines 291-317).
The task first runs the download (its result is captured in `result`), then
runs `convert_to_woff2` behind `?`: a conversion failure returns from the
task *before* the mutex section, so neither the counter nor the tag list is
touched.  When conversion succeeds, the task locks the mutex, increments
`downloaded_count` (u16 arithmetic) and appends its tag exactly when the
download result was `Ok`.  `dOk`/`cOk` are oracles giving each variant's
download and conversion outcome. -/
def run_task (dOk cOk : String → Bool) (st : ProgressState)
    (unit : String × FontStyles) : ProgressState :=
  if cOk unit.1 then
    { downloaded_count := (st.downloaded_count + 1) % 65536,
      downloaded_files :=
        if dOk unit.1 then st.downloaded_files ++ [unit.2] else st.downloaded_files }
  else st

/-- Shared state after the join point (main.rs lines 322-331): the mutex
serialises all task completions, so the final state is a left fold of the
atomic per-task update over the (nondeterministic) completion order. -/
def pipeline_final_state (completion : List (String × FontStyles))
    (dOk cOk : String → Bool) : ProgressState :=
  completion.foldl (run_task dOk cOk) ⟨0, []⟩

/-- Return value of `download_font_files` (main.rs lines 249-355): an error if
any variant token failed to resolve during setup, otherwise the
`downloaded_files` list read from the shared state after the join.
`completion` is the order in which the tasks reached the mutex. -/
def download_font_files_result (files : List (String × String))
    (dOk cOk : String → Bool) (completion : List (String × FontStyles)) :
    Except String (List FontStyles) :=
  match resolve_variants files with
  | .error e => .error e
  | .ok _tasks => .ok (pipeline_final_state completion dOk cOk).downloaded_files

/-- `PathBuf::join` for the relative components used by the program. -/
def path_join (base leaf : String) : String := base ++ "/" ++ leaf

/-- `Path::file_name` for the paths the program builds: the last
`/`-separated component. -/
def path_file_name (p : String) : String :=
  String.mk ((p.toList.splitOn '/').getLastD [])

/-- The intermediate download path of one task (main.rs line 289):
`output_dir.join(format!("{}-{}.ttf", family_name, font_style))`. -/
def task_output_path (output_dir family_name : String) (style : FontStyles) : String :=
  path_join output_dir (family_name ++ "-" ++ style.display ++ ".ttf")

/-- The family slug (main.rs line 159):
`font_family.family.to_lowercase().replace(' ', "-")`, modelled per
character. -/
def family_slug (family : String) : String :=
  String.mk (family.toList.map (fun c => if c.toLower = ' ' then '-' else c.toLower))

/-- `format_font_string` (main.rs lines 406-421): split the input on `-`,
upper-case the first character of every segment, join with spaces. -/
def format_font_string (input : String) : String :=
  String.intercalate " "
    ((input.toList.splitOn '-').map (fun word =>
      match word with
      | [] => ""
      | first :: rest => String.mk (first.toUpper :: rest)))

/-- One `@font-face` record as assembled in `write_css_file_for_font`
(main.rs lines 362-375): family display name from the directory leaf, `src`
the Debug-quoted woff2 path, plus the style keyword and numeric weight. -/
structure CssRecord where
  family : String
  src : String
  style : String
  weight : Nat
deriving Repr, DecidableEq

/-- The record built for one `FontStyles` entry (main.rs lines 366-375). -/
def font_face_record (font_dir font_family_name : String) (style : FontStyles) :
    CssRecord :=
  { family := format_font_string (path_file_name font_dir),
    src := "\"" ++ path_join font_dir
      (font_family_name ++ "-" ++ style.display ++ ".woff2") ++ "\"",
    style := style.get_style_and_weight.1,
    weight := style.get_style_and_weight.2 }

/-- File-open mode of one loop iteration (main.rs lines 377-389). -/
inductive OpenMode where
  | truncate
  | append
deriving Repr, DecidableEq

/-- Observable result of the stylesheet-writing loop: the records that ended
up in `fonts.css` and the trace of `(index, mode)` opens. -/
structure WriteLog where
  content : List CssRecord
  opens : List (Nat × OpenMode)
deriving Repr, DecidableEq

/-- The `for (idx, font_style) in font_styles.iter().enumerate()` loop of
`write_css_file_for_font` (main.rs lines 366-401).  Iteration `idx` opens the
css file with truncation exactly when `idx == 0` and in append mode
otherwise; an open failure (`openOk idx = false`) aborts the function through
`?`; a `writeln!` failure (`writeOk idx = false`) is only reported, so the
record is simply absent and the loop continues. -/
def write_css_loop (css_file_path : String) (openOk writeOk : Nat → Bool) :
    Nat → List CssRecord → WriteLog → Except String WriteLog
  | _, [], log => .ok log
  | idx, r :: rest, log =>
    if openOk idx then
      if idx = 0 then
        write_css_loop css_file_path openOk writeOk (idx + 1) rest
          ⟨if writeOk idx then [r] else [],
           log.opens ++ [(idx, OpenMode.truncate)]⟩
      else
        write_css_loop css_file_path openOk writeOk (idx + 1) rest
          ⟨if writeOk idx then log.content ++ [r] else log.content,
           log.opens ++ [(idx, OpenMode.append)]⟩
    else .error ("Could not create file at path: \"" ++ css_file_path ++ "\"")

/-- `write_css_file_for_font` (main.rs lines 357-404): builds a record per
style, runs the write loop over a file that may hold `prior` content from an
earlier run, and returns the css path on success. -/
def write_css_file_for_font (font_styles : List FontStyles)
    (font_dir font_family_name : String) (openOk writeOk : Nat → Bool)
    (prior : List CssRecord) : Except String (WriteLog × String) :=
  let css_file_path := path_join font_dir "fonts.css"
  let records := font_styles.map (font_face_record font_dir font_family_name)
  match write_css_loop css_file_path openOk writeOk 0 records ⟨prior, []⟩ with
  | .error e => .error e
  | .ok log => .ok (log, css_file_path)

/-- A catalog family record, `struct FontFamily` (main.rs lines 76-83); the
`files` HashMap becomes an association list. -/
structure FontFamily where
  family : String
  variants : List String
  subsets : List String
  files : List (String × String)
  category : String

/-- The top-level catalog response, `struct Font` (main.rs lines 71-74). -/
structure Font where
  items : List FontFamily

/-- The `ApiError` enum (main.rs lines 130-135); the reqwest `StatusCode` is
modelled by its numeric code. -/
inductive ApiError where
  | RequestFailed (msg : String)
  | BadStatus (status : Nat)
  | ParseError (msg : String)

/-- The `Display` implementation of `ApiError` (main.rs lines 137-145). -/
def ApiError.display : ApiError → String
  | .RequestFailed msg => "Request failed: " ++ msg
  | .BadStatus status => "Bad status code: " ++ toString status
  | .ParseError msg => "Parse error: " ++ msg

/-- The possible outcomes of `fetch_font_data`: an `Ok` family, an `Err`
propagated to `main`, or a Rust panic. -/
inductive FetchResult where
  | ok (fam : FontFamily)
  | fatalError (e : ApiError)
  | panicked

/-- `fetch_font_data` (main.rs lines 207-247) after the request succeeded:
a non-OK status returns `ApiError::BadStatus`; a body serde cannot parse
(`parsed = none`) returns `ApiError::ParseError`; otherwise the code takes
`font_data.items[0]`, which on an empty `items` vector is an out-of-bounds
index, i.e. a panic. -/
def fetch_font_data (status : Nat) (parsed : Option Font) : FetchResult :=
  if status ≠ 200 then .fatalError (.BadStatus status)
  else
    match parsed with
    | none => .fatalError (.ParseError "Could not parse response")
    | some font_data =>
      match font_data.items.head? with
      | none => .panicked
      | some fam => .ok fam

/-- `get_api_key` (main.rs lines 492-506): the CLI key, else the
`GFONT_API_KEY` environment variable filtered to be non-empty; `none` models
the `process::exit(1)` branch. -/
def get_api_key (cli_api_key envKey : Option String) : Option String :=
  match cli_api_key with
  | some k => some k
  | none =>
    match envKey with
    | some k => if k.isEmpty then none else some k
    | none => none

/-- `get_output_dir` (main.rs lines 203-205). -/
def get_output_dir (target_dir : Option String) : String :=
  match target_dir with
  | some d => d
  | none => "./fonts"

/-- Externally visible effects of `main`, in program order. -/
inductive MainEffect where
  | networkFetch
  | createDir (path : String)
  | writeCss (path : String)
deriving Repr, DecidableEq

/-- How the process ends. -/
inductive RunOutcome where
  | exitedEarly (code : Nat)
  | errored (msg : String)
  | panicked
  | completed (tags : List FontStyles)

/-- Exit code of the process: `process::exit(1)` in `get_api_key`, exit
code 1 when `main` returns `Err`, 101 on a Rust panic, 0 on success. -/
def RunOutcome.exit_code : RunOutcome → Nat
  | .exitedEarly code => code
  | .errored _ => 1
  | .panicked => 101
  | .completed _ => 0

/-- `main` (main.rs lines 149-201): resolve the output directory and API key
(exiting before any network activity when no key is available), fetch the
catalog data, create the family directory, run the pipeline, and write the
stylesheet (a stylesheet error is reported but not fatal).  Returns the
process outcome and the ordered effect trace. -/
def main_run (target_dir cli_api_key envKey : Option String) (status : Nat)
    (parsed : Option Font) (dOk cOk : String → Bool)
    (completion : List (String × FontStyles)) (openOk writeOk : Nat → Bool) :
    RunOutcome × List MainEffect :=
  let output_dir := get_output_dir target_dir
  match get_api_key cli_api_key envKey with
  | none => (.exitedEarly 1, [])
  | some _key =>
    match fetch_font_data status parsed with
    | .fatalError e => (.errored e.display, [.networkFetch])
    | .panicked => (.panicked, [.networkFetch])
    | .ok font_family =>
      let family_name := family_slug font_family.family
      let font_dir := path_join output_dir family_name
      match download_font_files_result font_family.files dOk cOk completion with
      | .error e => (.errored e, [.networkFetch, .createDir font_dir])
      | .ok download_results =>
        let css_path := path_join font_dir "fonts.css"
        let _css := write_css_file_for_font download_results font_dir family_name
          openOk writeOk []
        (.completed download_results,
         [.networkFetch, .createDir font_dir, .writeCss css_path])

instance {ε α : Type} [DecidableEq ε] [DecidableEq α] : DecidableEq (Except ε α) :=
  fun a b =>
    match a, b with
    | .ok x, .ok y =>
      if h : x = y then isTrue (by rw [h])
      else isFalse (fun hc => h (Except.ok.inj hc))
    | .ok _, .error _ => isFalse (fun hc => Except.noConfusion hc)
    | .error _, .ok _ => isFalse (fun hc => Except.noConfusion hc)
    | .error x, .error y =>
      if h : x = y then isTrue (by rw [h])
      else isFalse (fun hc => h (Except.error.inj hc))

theorem lookup_some_mem {β : Type} {l : List (String × β)} {k : String} {v : β}
    (h : l.lookup k = some v) : (k, v) ∈ l := by
  induction l with
  | nil => simp [List.lookup] at h
  | cons p rest ih =>
    obtain ⟨k', v'⟩ := p
    simp only [List.lookup] at h
    split at h
    next hbeq =>
      cases h
      have hk : k = k' := eq_of_beq hbeq
      subst hk
      exact List.mem_cons_self _ _
    next hbeq =>
      exact List.mem_cons_of_mem _ (ih h)

theorem lookup_none_of_not_mem {β : Type} {l : List (String × β)} {k : String}
    (h : k ∉ l.map Prod.fst) : l.lookup k = none := by
  induction l with
  | nil => rfl
  | cons p rest ih =>
    obtain ⟨k', v'⟩ := p
    simp only [List.map_cons, List.mem_cons, not_or] at h
    have hbeq : (k == k') = false := beq_eq_false_iff_ne.mpr h.1
    simp only [List.lookup, hbeq]
    exact ih h.2

theorem transpile_ok_mem {s : String} {a : FontStyles}
    (h : transpile_font_weight s = .ok a) : (s, a) ∈ font_weight_mappings := by
  unfold transpile_font_weight at h
  cases hl : font_weight_mappings.lookup s with
  | none => rw [hl] at h; cases h
  | some v => rw [hl] at h; cases h; exact lookup_some_mem hl

theorem transpile_inj {s t : String} {a : FontStyles}
    (hs : transpile_font_weight s = .ok a) (ht : transpile_font_weight t = .ok a) :
    s = t := by
  have hs' := transpile_ok_mem hs
  have ht' := transpile_ok_mem ht
  have hnd : (font_weight_mappings.map Prod.snd).Nodup := by decide
  have heq := (List.nodup_map_iff_inj_on (by decide : font_weight_mappings.Nodup)).mp
    hnd (s, a) hs' (t, a) ht' rfl
  exact congrArg Prod.fst heq

/-- Claim C5: the Style Mapper is deterministic (it is a pure function) and
total over exactly the 18 catalog tokens: each defined token maps to a style
whose weight lies in {100, ..., 900} and whose slant keyword is "italic"
exactly for the italic-suffixed tokens (including the literal "italic") and
"normal" otherwise; every other string yields the NotFound error. -/
theorem C5_style_mapper_total :
    (∀ s ∈ catalog_tokens, ∃ tag, transpile_font_weight s = .ok tag ∧
      tag.get_style_and_weight.2 ∈ [100, 200, 300, 400, 500, 600, 700, 800, 900] ∧
      (tag.get_style_and_weight.1 = "italic" ↔ is_italic_variant s = true) ∧
      (tag.get_style_and_weight.1 = "normal" ↔ is_italic_variant s = false)) ∧
    (∀ s, s ∉ catalog_tokens →
      transpile_font_weight s = .error "Couldn't find the variant in the hashmap") := by
  constructor
  · decide
  · intro s hs
    have hnone : font_weight_mappings.lookup s = none := lookup_none_of_not_mem hs
    simp [transpile_font_weight, hnone]

/-- Witness for C5 at the concrete tokens "700italic" and "999". -/
theorem C5_witness :
    ("700italic" ∈ catalog_tokens ∧ ∃ tag,
      transpile_font_weight "700italic" = .ok tag ∧
      tag.get_style_and_weight.2 ∈ [100, 200, 300, 400, 500, 600, 700, 800, 900] ∧
      (tag.get_style_and_weight.1 = "italic" ↔ is_italic_variant "700italic" = true) ∧
      (tag.get_style_and_weight.1 = "normal" ↔ is_italic_variant "700italic" = false)) ∧
    ("999" ∉ catalog_tokens ∧
      transpile_font_weight "999" = .error "Couldn't find the variant in the hashmap") :=
  ⟨⟨by decide, C5_style_mapper_total.1 "700italic" (by decide)⟩,
   ⟨by decide, C5_style_mapper_total.2 "999" (by decide)⟩⟩

/-- Claim C6 (code bug): an unparseable body does return the fatal
`ParseError` result, but a parseable body with an empty `items` array does
not — `font_data.items[0]` is an out-of-bounds index and the process panics
instead of returning an error result. -/
theorem C6_empty_items_panics :
    fetch_font_data 200 none = .fatalError (.ParseError "Could not parse response") ∧
    fetch_font_data 200 (some ⟨[]⟩) = .panicked := ⟨rfl, rfl⟩

/-- Counterexample to claim C1 as stated: with the catalog supplying the
unmapped token "999" alongside the perfectly mappable "regular", the run does
not proceed with the remaining variant — `download_font_files` returns the
mapping error for the whole run and no succeeded tags are reported. -/
theorem C1_counterexample :
    download_font_files_result [("999", "u1"), ("regular", "u2")]
      (fun _ => true) (fun _ => true) [("regular", FontStyles.Regular)] =
      .error "Couldn't find variant mapping for 999: Couldn't find the variant in the hashmap" ∧
    download_font_files_result [("999", "u1"), ("regular", "u2")]
      (fun _ => true) (fun _ => true) [("regular", FontStyles.Regular)] ≠
      .ok [FontStyles.Regular] := ⟨rfl, by decide⟩

/-- Claim C1 (amended): if the Style Mapper reports NotFound for any variant
token in the family's file map, the task-setup loop's `?` aborts the whole
run — `download_font_files` returns an error and no succeeded-tag list is
produced for any variant. -/
theorem C1_notfound_aborts_run (files : List (String × String))
    (dOk cOk : String → Bool) (completion : List (String × FontStyles))
    (variant url : String) (hmem : (variant, url) ∈ files)
    (hfail : transpile_font_weight variant =
      .error "Couldn't find the variant in the hashmap") :
    ∃ msg, download_font_files_result files dOk cOk completion = .error msg := by
  suffices h : ∃ msg, resolve_variants files = .error msg by
    obtain ⟨msg, hm⟩ := h
    exact ⟨msg, by simp [download_font_files_result, hm]⟩
  induction files with
  | nil => cases hmem
  | cons p rest ih =>
    obtain ⟨v, u⟩ := p
    rcases List.mem_cons.mp hmem with heq | hmem'
    · obtain ⟨rfl, rfl⟩ := Prod.mk.inj heq
      exact ⟨"Couldn't find variant mapping for " ++ variant ++ ": " ++
        "Couldn't find the variant in the hashmap",
        by simp only [resolve_variants, hfail]⟩
    · simp only [resolve_variants]
      cases htr : transpile_font_weight v with
      | error e => exact ⟨_, rfl⟩
      | ok style =>
        obtain ⟨msg, hm⟩ := ih hmem'
        rw [hm]
        exact ⟨msg, rfl⟩

/-- Witness for C1 at the concrete unmapped token "999". -/
theorem C1_witness :
    (("999", "u") ∈ [(("999" : String), ("u" : String))]) ∧
    ∃ msg, download_font_files_result [("999", "u")] (fun _ => true) (fun _ => true)
      [] = .error msg :=
  ⟨by decide, C1_notfound_aborts_run [("999", "u")] (fun _ => true) (fun _ => true)
    [] "999" "u" (by decide) rfl⟩

theorem foldl_run_task_count (dOk cOk : String → Bool) :
    ∀ (l : List (String × FontStyles)) (st : ProgressState),
      st.downloaded_count < 65536 →
      (l.foldl (run_task dOk cOk) st).downloaded_count
        = (st.downloaded_count + (l.filter (fun u => cOk u.1)).length) % 65536
  | [], st, h => by simpa using (Nat.mod_eq_of_lt h).symm
  | u :: l, st, h => by
    rw [List.foldl_cons]
    by_cases hc : cOk u.1
    · have hlt : (run_task dOk cOk st u).downloaded_count < 65536 := by
        simp only [run_task, if_pos hc]
        exact Nat.mod_lt _ (by norm_num)
      rw [foldl_run_task_count dOk cOk l _ hlt]
      have h1 : (run_task dOk cOk st u).downloaded_count
          = (st.downloaded_count + 1) % 65536 := by simp [run_task, hc]
      have h2 : (List.filter (fun u => cOk u.1) (u :: l)).length
          = (List.filter (fun u => cOk u.1) l).length + 1 := by
        simp [List.filter_cons, hc]
      rw [h1, h2, Nat.mod_add_mod]
      omega
    · have hst : run_task dOk cOk st u = st := by simp [run_task, hc]
      rw [hst, foldl_run_task_count dOk cOk l st h]
      simp [List.filter_cons, hc]

/-- Counterexample to claim C2 as stated: one variant is submitted (N = 1),
its download succeeds but its conversion fails; the `?` on `convert_to_woff2`
returns from the task before the mutex section, so after the join
`downloaded_count` is 0, not N = 1. -/
theorem C2_counterexample :
    resolve_variants [("regular", "u")] = .ok [("regular", FontStyles.Regular)] ∧
    ([("regular", FontStyles.Regular)] : List (String × FontStyles)).length = 1 ∧
    (pipeline_final_state [("regular", FontStyles.Regular)]
      (fun _ => true) (fun _ => false)).downloaded_count = 0 :=
  ⟨rfl, rfl, rfl⟩

/-- Claim C2 (amended): after the join, `downloaded_count` equals the number
of tasks whose conversion step succeeded (for runs of fewer than 2^16
variants, the u16 range): each task increments the counter under the mutex
exactly once if and only if its `convert_to_woff2` call returned Ok — a
failed download alone does not skip the increment, a failed conversion
does. -/
theorem C2_count_equals_conversion_successes
    (files : List (String × String)) (tasks completion : List (String × FontStyles))
    (dOk cOk : String → Bool)
    (_hres : resolve_variants files = .ok tasks)
    (hperm : completion.Perm tasks)
    (hlen : tasks.length < 65536) :
    (pipeline_final_state completion dOk cOk).downloaded_count
      = (tasks.filter (fun u => cOk u.1)).length := by
  have hfl : (completion.filter (fun u => cOk u.1)).length
      = (tasks.filter (fun u => cOk u.1)).length :=
    (hperm.filter _).length_eq
  have hle : (tasks.filter (fun u => cOk u.1)).length ≤ tasks.length :=
    List.length_filter_le _ _
  unfold pipeline_final_state
  rw [foldl_run_task_count dOk cOk completion ⟨0, []⟩ (by norm_num)]
  simp only [Nat.zero_add, hfl]
  exact Nat.mod_eq_of_lt (lt_of_le_of_lt hle hlen)

/-- Witness for C2 at a concrete single-variant run where both steps
succeed. -/
theorem C2_witness :
    resolve_variants [("regular", "u")] = .ok [("regular", FontStyles.Regular)] ∧
    (pipeline_final_state [("regular", FontStyles.Regular)]
        (fun _ => true) (fun _ => true)).downloaded_count
      = ([("regular", FontStyles.Regular)].filter
          (fun u => (fun _ => true) u.1)).length :=
  ⟨rfl, C2_count_equals_conversion_successes [("regular", "u")]
    [("regular", FontStyles.Regular)] [("regular", FontStyles.Regular)]
    (fun _ => true) (fun _ => true) rfl (List.Perm.refl _) (by norm_num)⟩

theorem foldl_run_task_files (dOk cOk : String → Bool) :
    ∀ (l : List (String × FontStyles)) (st : ProgressState),
      (l.foldl (run_task dOk cOk) st).downloaded_files
        = st.downloaded_files
          ++ (l.filter (fun u => cOk u.1 && dOk u.1)).map Prod.snd
  | [], st => by simp
  | u :: l, st => by
    rw [List.foldl_cons, foldl_run_task_files dOk cOk l]
    by_cases hc : cOk u.1
    · by_cases hd : dOk u.1
      · simp [run_task, hc, hd, List.filter_cons]
      · simp [run_task, hc, hd, List.filter_cons]
    · simp [run_task, hc, List.filter_cons]

theorem resolve_variants_map_fst :
    ∀ (files : List (String × String)) (tasks : List (String × FontStyles)),
      resolve_variants files = .ok tasks →
      tasks.map Prod.fst = files.map Prod.fst
  | [], tasks, h => by
    cases h
    rfl
  | (v, u) :: rest, tasks, h => by
    simp only [resolve_variants] at h
    cases htr : transpile_font_weight v with
    | error e => rw [htr] at h; cases h
    | ok style =>
      rw [htr] at h
      cases hres : resolve_variants rest with
      | error e => rw [hres] at h; cases h
      | ok others =>
        rw [hres] at h
        cases h
        simp [resolve_variants_map_fst rest others hres]

theorem resolve_variants_transpile :
    ∀ (files : List (String × String)) (tasks : List (String × FontStyles)),
      resolve_variants files = .ok tasks →
      ∀ t ∈ tasks, transpile_font_weight t.1 = .ok t.2
  | [], tasks, h => by
    cases h
    intro t ht
    cases ht
  | (v, u) :: rest, tasks, h => by
    simp only [resolve_variants] at h
    cases htr : transpile_font_weight v with
    | error e => rw [htr] at h; cases h
    | ok style =>
      rw [htr] at h
      cases hres : resolve_variants rest with
      | error e => rw [hres] at h; cases h
      | ok others =>
        rw [hres] at h
        cases h
        intro t ht
        rcases List.mem_cons.mp ht with rfl | ht'
        · exact htr
        · exact resolve_variants_transpile rest others hres t ht'

/-- Claim C3: a successful pipeline run returns exactly the tags of the tasks
whose conversion step succeeded and whose download result was Ok, in
completion order; with the distinct variant keys of the catalog's file map
the returned list also holds at most one entry per variant token (it is
duplicate-free). -/
theorem C3_succeeded_tags (files : List (String × String))
    (tasks completion : List (String × FontStyles)) (dOk cOk : String → Bool)
    (result : List FontStyles)
    (hres : resolve_variants files = .ok tasks)
    (hperm : completion.Perm tasks)
    (hnd : (files.map Prod.fst).Nodup)
    (hrun : download_font_files_result files dOk cOk completion = .ok result) :
    result = (completion.filter (fun u => cOk u.1 && dOk u.1)).map Prod.snd ∧
    result.Nodup := by
  have hresult : result = (pipeline_final_state completion dOk cOk).downloaded_files := by
    unfold download_font_files_result at hrun
    rw [hres] at hrun
    exact (Except.ok.inj hrun).symm
  have hfiles : (pipeline_final_state completion dOk cOk).downloaded_files
      = (completion.filter (fun u => cOk u.1 && dOk u.1)).map Prod.snd := by
    unfold pipeline_final_state
    rw [foldl_run_task_files]
    rfl
  refine ⟨hresult.trans hfiles, ?_⟩
  rw [hresult.trans hfiles]
  -- the variant keys of the completion list are duplicate-free
  have htasks_fst : (tasks.map Prod.fst).Nodup := by
    rw [resolve_variants_map_fst files tasks hres]
    exact hnd
  have hcomp_fst : (completion.map Prod.fst).Nodup :=
    ((hperm.map Prod.fst).nodup_iff).mpr htasks_fst
  set flt := completion.filter (fun u => cOk u.1 && dOk u.1) with hflt
  have hflt_fst : (flt.map Prod.fst).Nodup :=
    hcomp_fst.sublist ((List.filter_sublist _).map Prod.fst)
  have hflt_nd : flt.Nodup := hflt_fst.of_map
  have hfst_inj := (List.nodup_map_iff_inj_on hflt_nd).mp hflt_fst
  refine hflt_nd.map_on ?_
  intro x hx y hy hxy
  have hx_t : x ∈ tasks := hperm.mem_iff.mp (List.mem_of_mem_filter hx)
  have hy_t : y ∈ tasks := hperm.mem_iff.mp (List.mem_of_mem_filter hy)
  have hx_tr := resolve_variants_transpile files tasks hres x hx_t
  have hy_tr := resolve_variants_transpile files tasks hres y hy_t
  rw [hxy] at hx_tr
  have hfst : x.1 = y.1 := transpile_inj hx_tr hy_tr
  exact hfst_inj x hx y hy hfst

/-- Witness for C3: a two-variant run whose completion order is reversed and
whose second download failed. -/
theorem C3_witness :
    resolve_variants [("regular", "u1"), ("700italic", "u2")]
      = .ok [("regular", FontStyles.Regular), ("700italic", FontStyles.BoldItalic)] ∧
    [FontStyles.BoldItalic]
      = (([("700italic", FontStyles.BoldItalic), ("regular", FontStyles.Regular)].filter
          (fun u => (fun _ => true) u.1 && (fun s => s != "regular") u.1)).map Prod.snd) ∧
    ([FontStyles.BoldItalic] : List FontStyles).Nodup :=
  ⟨rfl,
    C3_succeeded_tags [("regular", "u1"), ("700italic", "u2")]
      [("regular", FontStyles.Regular), ("700italic", FontStyles.BoldItalic)]
      [("700italic", FontStyles.BoldItalic), ("regular", FontStyles.Regular)]
      (fun _ => true) (fun s => s != "regular") [FontStyles.BoldItalic]
      rfl (by decide) (by decide) rfl⟩

/-- Expected open-mode trace: starting at iteration `idx`, `n` further
iterations, each opening with truncation exactly at index 0. -/
def open_modes : Nat → Nat → List (Nat × OpenMode)
  | _, 0 => []
  | idx, n + 1 =>
    (idx, if idx = 0 then OpenMode.truncate else OpenMode.append)
      :: open_modes (idx + 1) n

/-- Expected file content: the records whose `writeln!` succeeded, in order. -/
def written_records (writeOk : Nat → Bool) : Nat → List CssRecord → List CssRecord
  | _, [] => []
  | idx, r :: rest =>
    (if writeOk idx then [r] else []) ++ written_records writeOk (idx + 1) rest

theorem open_modes_mem_append :
    ∀ (n k : Nat), ∀ p ∈ open_modes k n, p.1 ≠ 0 → p.2 = OpenMode.append
  | 0, _, _, hp, _ => by cases hp
  | n + 1, k, p, hp, h => by
    simp only [open_modes, List.mem_cons] at hp
    rcases hp with rfl | hp'
    · simp only at h ⊢
      rw [if_neg h]
    · exact open_modes_mem_append n (k + 1) p hp' h

theorem write_css_loop_all_open (path : String) (writeOk : Nat → Bool) :
    ∀ (rest : List CssRecord) (idx : Nat) (log : WriteLog), 1 ≤ idx →
      write_css_loop path (fun _ => true) writeOk idx rest log
        = .ok ⟨log.content ++ written_records writeOk idx rest,
               log.opens ++ open_modes idx rest.length⟩
  | [], idx, log, _h => by simp [write_css_loop, written_records, open_modes]
  | r :: rest, idx, log, h => by
    have hidx : ¬idx = 0 := by omega
    rw [show write_css_loop path (fun _ => true) writeOk idx (r :: rest) log
        = write_css_loop path (fun _ => true) writeOk (idx + 1) rest
            ⟨if writeOk idx then log.content ++ [r] else log.content,
             log.opens ++ [(idx, OpenMode.append)]⟩ from by
      simp [write_css_loop, hidx]]
    rw [write_css_loop_all_open path writeOk rest (idx + 1) _ (by omega)]
    by_cases hw : writeOk idx
    · simp [hw, written_records, open_modes, hidx]
    · simp [hw, written_records, open_modes, hidx]

theorem write_css_loop_from_zero (path : String) (writeOk : Nat → Bool)
    (r : CssRecord) (rs : List CssRecord) (log : WriteLog) :
    write_css_loop path (fun _ => true) writeOk 0 (r :: rs) log
      = .ok ⟨written_records writeOk 0 (r :: rs),
             log.opens ++ open_modes 0 (rs.length + 1)⟩ := by
  rw [show write_css_loop path (fun _ => true) writeOk 0 (r :: rs) log
      = write_css_loop path (fun _ => true) writeOk 1 rs
          ⟨if writeOk 0 then [r] else [], log.opens ++ [(0, OpenMode.truncate)]⟩ from by
    simp [write_css_loop]]
  rw [write_css_loop_all_open path writeOk rs 1 _ (by omega)]
  by_cases hw : writeOk 0
  · simp [hw, written_records, open_modes]
  · simp [hw, written_records, open_modes]

/-- Claim C8: with every file open succeeding, the stylesheet loop opens the
file with truncation for the first record and in append mode for every later
record, and a `writeln!` failure only drops that one record — the remaining
records are still written and the function still returns the css path. -/
theorem C8_truncate_then_append (font_styles : List FontStyles)
    (font_dir font_family_name : String) (writeOk : Nat → Bool)
    (prior : List CssRecord) (hne : font_styles ≠ []) :
    ∃ log, write_css_file_for_font font_styles font_dir font_family_name
        (fun _ => true) writeOk prior = .ok (log, path_join font_dir "fonts.css") ∧
      log.opens = open_modes 0 font_styles.length ∧
      log.opens.head? = some (0, OpenMode.truncate) ∧
      (∀ p ∈ log.opens, p.1 ≠ 0 → p.2 = OpenMode.append) ∧
      log.content = written_records writeOk 0
        (font_styles.map (font_face_record font_dir font_family_name)) := by
  obtain ⟨s, ss, rfl⟩ := List.exists_cons_of_ne_nil hne
  refine ⟨⟨written_records writeOk 0
      ((s :: ss).map (font_face_record font_dir font_family_name)),
      open_modes 0 (s :: ss).length⟩, ?_, rfl, ?_, ?_, rfl⟩
  · simp only [write_css_file_for_font, List.map_cons]
    rw [write_css_loop_from_zero]
    simp
  · simp [open_modes]
  · exact open_modes_mem_append (s :: ss).length 0

/-- Witness for C8: two records, the first `writeln!` fails; the second
record is still written after a truncating then an appending open. -/
theorem C8_witness :
    ([FontStyles.Regular, FontStyles.Bold] ≠ ([] : List FontStyles)) ∧
    ∃ log, write_css_file_for_font [FontStyles.Regular, FontStyles.Bold]
        "./fonts/f" "f" (fun _ => true) (fun i => i != 0) [] =
        .ok (log, path_join "./fonts/f" "fonts.css") ∧
      log.opens = open_modes 0 ([FontStyles.Regular, FontStyles.Bold] : List FontStyles).length ∧
      log.opens.head? = some (0, OpenMode.truncate) ∧
      (∀ p ∈ log.opens, p.1 ≠ 0 → p.2 = OpenMode.append) ∧
      log.content = written_records (fun i => i != 0) 0
        ([FontStyles.Regular, FontStyles.Bold].map (font_face_record "./fonts/f" "f")) :=
  ⟨by decide, C8_truncate_then_append [FontStyles.Regular, FontStyles.Bold]
    "./fonts/f" "f" (fun i => i != 0) [] (by decide)⟩

theorem write_css_loop_content_mem (path : String) (openOk writeOk : Nat → Bool) :
    ∀ (rest : List CssRecord) (idx : Nat) (log log' : WriteLog),
      write_css_loop path openOk writeOk idx rest log = .ok log' →
      ∀ r ∈ log'.content, r ∈ log.content ∨ r ∈ rest
  | [], idx, log, log', h => by
    cases h
    intro r hr
    exact Or.inl hr
  | r0 :: rest, idx, log, log', h => by
    intro r hr
    simp only [write_css_loop] at h
    split at h
    · split at h
      · rcases write_css_loop_content_mem path openOk writeOk rest (idx + 1) _ log'
          h r hr with hin | hin
        · by_cases hw : writeOk idx
          · rw [if_pos hw] at hin
            simp only [List.mem_singleton] at hin
            exact Or.inr (hin ▸ List.mem_cons_self _ _)
          · rw [if_neg hw] at hin
            cases hin
        · exact Or.inr (List.mem_cons_of_mem _ hin)
      · rcases write_css_loop_content_mem path openOk writeOk rest (idx + 1) _ log'
          h r hr with hin | hin
        · by_cases hw : writeOk idx
          · rw [if_pos hw] at hin
            rcases List.mem_append.mp hin with hin' | hin'
            · exact Or.inl hin'
            · simp only [List.mem_singleton] at hin'
              exact Or.inr (hin' ▸ List.mem_cons_self _ _)
          · rw [if_neg hw] at hin
            exact Or.inl hin
        · exact Or.inr (List.mem_cons_of_mem _ hin)
    · cases h

/-- Claim C9: every record the stylesheet writer puts into `fonts.css`
carries the family display name derived from the output directory's leaf
split on `-` with each segment's first character upper-cased
(`format_font_string`), and that name does not depend on the catalog-cased
`font_family_name` argument. -/
theorem C9_family_display_name (font_styles : List FontStyles)
    (font_dir name name' : String) (openOk writeOk : Nat → Bool)
    (log : WriteLog) (path : String)
    (hrun : write_css_file_for_font font_styles font_dir name openOk writeOk []
      = .ok (log, path)) :
    (∀ r ∈ log.content, r.family = format_font_string (path_file_name font_dir)) ∧
    (∀ style : FontStyles, (font_face_record font_dir name style).family
      = (font_face_record font_dir name' style).family) := by
  constructor
  · intro r hr
    simp only [write_css_file_for_font] at hrun
    cases hloop : write_css_loop (path_join font_dir "fonts.css") openOk writeOk 0
        (font_styles.map (font_face_record font_dir name)) ⟨[], []⟩ with
    | error e => rw [hloop] at hrun; cases hrun
    | ok log0 =>
      rw [hloop] at hrun
      cases hrun
      rcases write_css_loop_content_mem _ openOk writeOk _ 0 _ _ hloop r hr with
        hin | hin
      · cases hin
      · obtain ⟨style, _hs, rfl⟩ := List.mem_map.mp hin
        rfl
  · intro _style
    rfl

/-- Witness for C9 at a concrete single-record run. -/
theorem C9_witness :
    write_css_file_for_font [FontStyles.Regular] "./fonts/f" "f"
      (fun _ => true) (fun _ => true) [] =
      .ok (⟨[⟨"F", "\"./fonts/f/f-regular.woff2\"", "normal", 400⟩],
        [(0, OpenMode.truncate)]⟩, "./fonts/f/fonts.css") ∧
    (⟨"F", "\"./fonts/f/f-regular.woff2\"", "normal", 400⟩ : CssRecord).family
      = format_font_string (path_file_name "./fonts/f") :=
  ⟨rfl,
    (C9_family_display_name [FontStyles.Regular] "./fonts/f" "f" "F"
      (fun _ => true) (fun _ => true)
      ⟨[⟨"F", "\"./fonts/f/f-regular.woff2\"", "normal", 400⟩],
        [(0, OpenMode.truncate)]⟩ "./fonts/f/fonts.css" rfl).1
      ⟨"F", "\"./fonts/f/f-regular.woff2\"", "normal", 400⟩ (by decide)⟩

/-- Claim C7: a non-OK catalog status is fatal: `fetch_font_data` returns the
`BadStatus` error, `main`'s effect trace holds only the network fetch — no
directory is created and no stylesheet is written — and the process exits
non-zero with the catalog-error message. -/
theorem C7_bad_status_fatal (target_dir cli_api_key envKey : Option String)
    (status : Nat) (parsed : Option Font) (dOk cOk : String → Bool)
    (completion : List (String × FontStyles)) (openOk writeOk : Nat → Bool)
    (k : String) (hkey : get_api_key cli_api_key envKey = some k)
    (hstatus : status ≠ 200) :
    main_run target_dir cli_api_key envKey status parsed dOk cOk completion
        openOk writeOk
      = (.errored ("Bad status code: " ++ toString status), [.networkFetch]) ∧
    (main_run target_dir cli_api_key envKey status parsed dOk cOk completion
        openOk writeOk).1.exit_code = 1 ∧
    (∀ p, MainEffect.createDir p ∉ (main_run target_dir cli_api_key envKey status
        parsed dOk cOk completion openOk writeOk).2) ∧
    (∀ p, MainEffect.writeCss p ∉ (main_run target_dir cli_api_key envKey status
        parsed dOk cOk completion openOk writeOk).2) := by
  have hfetch : fetch_font_data status parsed = .fatalError (.BadStatus status) := by
    simp [fetch_font_data, hstatus]
  have h : main_run target_dir cli_api_key envKey status parsed dOk cOk completion
      openOk writeOk
      = (.errored ("Bad status code: " ++ toString status), [.networkFetch]) := by
    simp only [main_run, hkey, hfetch]
    rfl
  refine ⟨h, by rw [h]; rfl, fun p hp => ?_, fun p hp => ?_⟩
  · rw [h] at hp
    simp at hp
  · rw [h] at hp
    simp at hp

/-- Witness for C7 at the concrete status 404. -/
theorem C7_witness :
    get_api_key (some "key") none = some "key" ∧ ((404 : Nat) ≠ 200) ∧
    main_run none (some "key") none 404 none (fun _ => true) (fun _ => true) []
      (fun _ => true) (fun _ => true)
      = (.errored ("Bad status code: " ++ toString (404 : Nat)), [.networkFetch]) :=
  ⟨rfl, by decide,
    (C7_bad_status_fatal none (some "key") none 404 none (fun _ => true)
      (fun _ => true) [] (fun _ => true) (fun _ => true) "key" rfl (by decide)).1⟩

/-- Claim C10: `get_api_key` filters the `GFONT_API_KEY` value through
non-emptiness, so an empty environment value behaves like an absent one —
with no CLI key the run exits with code 1 before any effect (in particular
before any network activity) — and a supplied CLI key short-circuits the
environment lookup entirely. -/
theorem C10_api_key_handling (target_dir : Option String) (status : Nat)
    (parsed : Option Font) (dOk cOk : String → Bool)
    (completion : List (String × FontStyles)) (openOk writeOk : Nat → Bool) :
    main_run target_dir none none status parsed dOk cOk completion openOk writeOk
      = (.exitedEarly 1, []) ∧
    main_run target_dir none (some "") status parsed dOk cOk completion openOk
        writeOk
      = (.exitedEarly 1, []) ∧
    (main_run target_dir none none status parsed dOk cOk completion openOk
        writeOk).1.exit_code ≠ 0 ∧
    (∀ k envKey, get_api_key (some k) envKey = some k) :=
  ⟨rfl, rfl, Nat.one_ne_zero, fun _k _envKey => rfl⟩

/-- Counterexample to claim C4 as stated: the scenario's first variant token
is "400", which is not one of the 18 table keys (the table spells
weight-400-normal as "regular"), so with the variant map
{"400": u1, "700italic": u2} the pipeline does not produce the two
artifacts — it aborts with the mapping error. -/
theorem C4_counterexample :
    transpile_font_weight "400" = .error "Couldn't find the variant in the hashmap" ∧
    download_font_files_result [("400", "u1"), ("700italic", "u2")]
      (fun _ => true) (fun _ => true) [] =
      .error "Couldn't find variant mapping for 400: Couldn't find the variant in the hashmap" :=
  ⟨rfl, rfl⟩

/-- Claim C4 (amended): for family "Example Sans" with the catalog tokens
"regular" and "700italic" (the table's spellings of weight-400-normal and
weight-700-italic), when every download and conversion succeeds the pipeline
writes the intermediates example-sans-regular.ttf and
example-sans-bold-italic.ttf in the example-sans directory, returns both
tags, and fonts.css receives exactly two records, one with weight 400 /
style normal and one with weight 700 / style italic. -/
theorem C4_example_sans_scenario :
    family_slug "Example Sans" = "example-sans" ∧
    resolve_variants [("regular", "u1"), ("700italic", "u2")]
      = .ok [("regular", FontStyles.Regular), ("700italic", FontStyles.BoldItalic)] ∧
    download_font_files_result [("regular", "u1"), ("700italic", "u2")]
      (fun _ => true) (fun _ => true)
      [("regular", FontStyles.Regular), ("700italic", FontStyles.BoldItalic)]
      = .ok [FontStyles.Regular, FontStyles.BoldItalic] ∧
    task_output_path "./fonts/example-sans" "example-sans" FontStyles.Regular
      = "./fonts/example-sans/example-sans-regular.ttf" ∧
    task_output_path "./fonts/example-sans" "example-sans" FontStyles.BoldItalic
      = "./fonts/example-sans/example-sans-bold-italic.ttf" ∧
    write_css_file_for_font [FontStyles.Regular, FontStyles.BoldItalic]
      "./fonts/example-sans" "example-sans" (fun _ => true) (fun _ => true) []
      = .ok
        (⟨[⟨"Example Sans", "\"./fonts/example-sans/example-sans-regular.woff2\"",
            "normal", 400⟩,
           ⟨"Example Sans", "\"./fonts/example-sans/example-sans-bold-italic.woff2\"",
            "italic", 700⟩],
          [(0, OpenMode.truncate), (1, OpenMode.append)]⟩,
         "./fonts/example-sans/fonts.css") :=
  ⟨rfl, rfl, rfl, rfl, rfl, rfl⟩

end GFontApi
